import Mathlib

/-!
Shallow embedding of the gofi capture/injection engine (Go), covering:
the radiotap header codec (radiotap.go / src/unnamed/part_001), the BPF
batched-read demultiplexer and send path (src/bpf_osx.go), and the
OS X handle facade (src/osx.go).  Byte buffers are `List Nat` where each
element models one Go `byte`; Go's 64-bit `int` arithmetic on lengths and
offsets is modelled by `Nat` (all quantities involved are non-negative and
far below 2^63, so no overflow behaviour is lost).  Device I/O (reads,
writes, ioctls) is modelled by explicit oracles passed as arguments.
-/

namespace Gofi

/-- Error values of the package (errors.go plus the ad-hoc `errors.New`
messages used in bpf_osx.go and the radiotap parser). -/
inductive Err where
  | bufferUnderflow
  | closed
  | readTimeout
  | msg (s : String)
deriving DecidableEq, Repr

deriving instance DecidableEq for Except

/-- Outcome of running a piece of Go code that may also crash or block:
`ret` is a normal return, `panic` a runtime panic (nil-pointer
dereference), `hang` no return (an infinite loop, or the read oracle
being exhausted while the code would keep blocking on the device). -/
inductive Exec (α : Type) where
  | ret (a : α)
  | panic
  | hang
deriving DecidableEq, Repr

/-- `data[i]`: byte access.  Every reachable access in the embedded code is
bounds-guarded, so the default value 0 is never produced on those paths. -/
def getByte (data : List Nat) (i : Nat) : Nat := data.getD i 0

/-- `binary.LittleEndian.Uint16(data[i:])`. -/
def readU16 (data : List Nat) (i : Nat) : Nat :=
  getByte data i + 256 * getByte data (i + 1)

/-- `binary.LittleEndian.Uint32(data[i:])`. -/
def readU32 (data : List Nat) (i : Nat) : Nat :=
  getByte data i + 256 * getByte data (i + 1) +
    65536 * getByte data (i + 2) + 16777216 * getByte data (i + 3)

/-- `binary.LittleEndian.PutUint32`: the four little-endian bytes of `n`. -/
def putU32le (n : Nat) : List Nat :=
  [n % 256, n / 256 % 256, n / 65536 % 256, n / 16777216 % 256]

/-- `data[a:b]`: Go slicing of a byte buffer. -/
def subSlice (data : List Nat) (a b : Nat) : List Nat :=
  (data.take b).drop a

/-- One bit-step of the reflected CRC-32 (polynomial 0xEDB88320), as in Go's
`hash/crc32` for the IEEE table. -/
def crc32Step (c : Nat) : Nat :=
  if c % 2 = 1 then (c / 2) ^^^ 0xEDB88320 else c / 2

/-- Iterate `crc32Step`. -/
def crc32Bits : Nat → Nat → Nat
  | 0, c => c
  | n + 1, c => crc32Bits n (crc32Step c)

/-- Fold one input byte into the running CRC-32 state. -/
def crc32Update (c b : Nat) : Nat := crc32Bits 8 (c ^^^ b % 256)

/-- `crc32.ChecksumIEEE(data)`: initial state 0xFFFFFFFF, final complement. -/
def crc32 (data : List Nat) : Nat :=
  (data.foldl crc32Update 0xFFFFFFFF) ^^^ 0xFFFFFFFF

/-- The four checksum bytes the code appends: CRC-32 stored little-endian
(`binary.LittleEndian.PutUint32(newFrame[len(frame):], checksum)`). -/
def crc32le (data : List Nat) : List Nat := putU32le (crc32 data)

/-- RadioInfo (packet data-model file).  All fields are Go `int`s zero by
default; `Rate` holds a `DataRate` (a byte-sized rate code), whose declaring
file is not part of the provided sources but which the radiotap parser
assigns (`radioInfo.Rate = DataRate(...)`). -/
structure RadioInfo where
  Frequency : Int := 0
  NoisePower : Int := 0
  SignalPower : Int := 0
  TransmitPower : Int := 0
  Rate : Nat := 0
deriving DecidableEq, Repr

/-- The zero value `var radioInfo RadioInfo`. -/
def RadioInfo.zero : RadioInfo := {}

/-- RadioPacket: a frame plus optional radio metadata (`*RadioInfo`, nil
modelled as `none`). -/
structure RadioPacket where
  frame : List Nat
  radioInfo : Option RadioInfo
deriving DecidableEq, Repr

/-- `int(int8(b))`: reinterpret a byte as a signed 8-bit value. -/
def int8OfByte (b : Nat) : Int :=
  if b % 256 < 128 then (b % 256 : Int) else (b % 256 : Int) - 256

/-- `radiotapFields`: the fixed (alignment, size) table for radiotap field
indices 0..13. -/
def radiotapFields : List (Nat × Nat) :=
  [(8, 8), (1, 1), (1, 1), (2, 4), (2, 2), (1, 1), (1, 1),
   (2, 2), (2, 2), (2, 2), (1, 1), (1, 1), (1, 1), (1, 1)]

/-- The alignment adjustment in the parser loop:
`if (fieldOffset & (info.Alignment - 1)) != 0 \x7b fieldOffset += info.Alignment - (fieldOffset & (info.Alignment - 1)) \x7d`. -/
def radiotapAlign (off a : Nat) : Nat :=
  if off &&& (a - 1) ≠ 0 then off + (a - (off &&& (a - 1))) else off

/-- The `switch i` body of the parser loop: update `(radioInfo, flags)` from
the field with index `i` located at byte offset `off` of the field area. -/
def radiotapApplyField (i : Nat) (fields : List Nat) (off : Nat)
    (acc : RadioInfo × Nat) : RadioInfo × Nat :=
  if i = 1 then (acc.1, getByte fields off)
  else if i = 2 then ({ acc.1 with Rate := getByte fields off }, acc.2)
  else if i = 3 then ({ acc.1 with Frequency := (readU16 fields off : Int) }, acc.2)
  else if i = 6 then ({ acc.1 with NoisePower := int8OfByte (getByte fields off) }, acc.2)
  else if i = 5 then ({ acc.1 with SignalPower := int8OfByte (getByte fields off) }, acc.2)
  else if i = 10 then ({ acc.1 with TransmitPower := int8OfByte (getByte fields off) }, acc.2)
  else acc

/-- The field-walking loop of `parseRadiotapPacket`: iterate over the table
with index `i`, skipping absent fields, aligning, bounds-checking, and
extracting present ones.  `fields` is the field area `dataFields`. -/
def radiotapWalkAux (present : Nat) (fields : List Nat) :
    Nat → List (Nat × Nat) → Nat → RadioInfo × Nat → Except Err (RadioInfo × Nat)
  | _, [], _, acc => .ok acc
  | i, (a, s) :: tbl, off, acc =>
    if present &&& (1 <<< i) = 0 then
      radiotapWalkAux present fields (i + 1) tbl off acc
    else
      let off2 := radiotapAlign off a
      if off2 + s > fields.length then .error .bufferUnderflow
      else
        radiotapWalkAux present fields (i + 1) tbl (off2 + s)
          (radiotapApplyField i fields off2 acc)

/-- Walk the whole field table starting from offset 0 with zeroed
accumulators (`var radioInfo RadioInfo; var fieldOffset int; var flags int`).
Returns the populated RadioInfo and the Flags byte. -/
def radiotapWalk (present : Nat) (fields : List Nat) :
    Except Err (RadioInfo × Nat) :=
  radiotapWalkAux present fields 0 radiotapFields 0 (RadioInfo.zero, 0)

/-- The header portion of `parseRadiotapPacket` (lines 50-66): length
checks, header size at bytes [2:4], present-field bitmap at [4:8], and the
field-area slice (starting at 12 instead of 8 when bit 31 is set). -/
def radiotapHeader (data : List Nat) :
    Except Err (Nat × Nat × List Nat) :=
  if data.length < 8 then .error .bufferUnderflow
  else if data.length < readU16 data 2 ∨ readU16 data 2 < 8 then .error .bufferUnderflow
  else if readU32 data 4 &&& 0x80000000 ≠ 0 then
    if data.length < 12 ∨ readU16 data 2 < 12 then .error .bufferUnderflow
    else .ok (readU16 data 2, readU32 data 4, subSlice data 12 (readU16 data 2))
  else .ok (readU16 data 2, readU32 data 4, subSlice data 8 (readU16 data 2))

/-- `radiotapFlagHasFCS = 0x10`. -/
def radiotapFlagHasFCS : Nat := 0x10

/-- `radiotapFlagHasPadding = 0x20`. -/
def radiotapFlagHasPadding : Nat := 0x20

/-- `parseRadiotapPacket(data)`: decode the radiotap header, take the bytes
after it as the frame, reject the padding flag, and append a CRC-32
checksum when the FCS flag is absent. -/
def parseRadiotapPacket (data : List Nat) : Except Err RadioPacket :=
  match radiotapHeader data with
  | .error e => .error e
  | .ok (headerSize, presentFlags, dataFields) =>
    match radiotapWalk presentFlags dataFields with
    | .error e => .error e
    | .ok (info, flags) =>
      if flags &&& radiotapFlagHasPadding ≠ 0 then
        .error (.msg "radiotap frame padding is unsupported")
      else if flags &&& radiotapFlagHasFCS = 0 then
        .ok ⟨data.drop headerSize ++ crc32le (data.drop headerSize), some info⟩
      else
        .ok ⟨data.drop headerSize, some info⟩

/-- The Flags byte `parseRadiotapPacket` extracts from a buffer, when the
header parses and the field walk succeeds (projection of the parser's
internal `flags` variable, used to state claims about the FCS and padding
bits). -/
def radiotapFlagsOf (data : List Nat) : Option Nat :=
  match radiotapHeader data with
  | .error _ => none
  | .ok (_, presentFlags, dataFields) =>
    match radiotapWalk presentFlags dataFields with
    | .error _ => none
    | .ok (_, flags) => some flags

/-- `encodeRadiotapPacket(f, r)`: the fixed 10-byte header (length 10,
bitmap = Flags and Rate present, Flags byte = FCS present, Rate byte =
`byte(r)`) followed by the frame. -/
def encodeRadiotapPacket (f : List Nat) (r : Nat) : List Nat :=
  [0, 0, 10, 0, (1 <<< 1) ||| (1 <<< 2), 0, 0, 0, 0x10, r % 256] ++ f

/-- `dltIEEE802_11_RADIO = 127`. -/
def dltIEEE802_11_RADIO : Nat := 127

/-- `dltIEEE802_11 = 105`. -/
def dltIEEE802_11 : Nat := 105

/-- `bpfHandle.parsePacket`: in bare-MAC mode synthesize and append the
CRC-32 checksum; in radio mode delegate to the radiotap parser. -/
def parsePacket (dataLinkType : Nat) (data : List Nat) : Except Err RadioPacket :=
  if dataLinkType = dltIEEE802_11 then
    .ok ⟨data ++ crc32le data, none⟩
  else if dataLinkType = dltIEEE802_11_RADIO then
    parseRadiotapPacket data
  else
    .error (.msg "invalid data-link type")

/-- `align4(i)`: round up to the next multiple of 4 (identity on multiples). -/
def align4 (i : Nat) : Nat :=
  if i &&& 3 = 0 then i else i + 4 - (i &&& 3)

/-- The record-splitting loop of `bpfHandle.parsePackets`, at loop position
`i`.  The loop runs while `i < len(data) - 18` (Go signed arithmetic; for
`i ≥ 0` this is `i + 18 < len(data)`), reads the bpf_xhdr lengths, bounds
checks, parses the payload, and continues at `align4(i + hl + cl)`.
`fuel` is an iteration budget used only to make the recursion structural:
an advancing iteration raises `i` by at least 1, so `data.length + 1` fuel
is enough for every terminating run, and exhausting it can only happen if
the loop reaches a state it will repeat forever (a record with
`headerLength + capturedLength = 0` at an aligned position), which is a
genuine infinite loop of the Go code, reported as `hang`.
(The Go check `capturedLength < 0 || originalLength < 0` is vacuous here:
both are 32-bit values widened to 64-bit `int`, hence never negative.) -/
def bpfLoop (dlt : Nat) (data : List Nat) : Nat → Nat → Exec (Except Err (List RadioPacket))
  | _, 0 => .hang
  | i, fuel + 1 =>
    if i + 18 < data.length then
      if i + readU16 data (i + 16) + readU32 data (i + 8) > data.length then
        .ret (.error .bufferUnderflow)
      else
        match parsePacket dlt (subSlice data (i + readU16 data (i + 16))
            (i + readU16 data (i + 16) + readU32 data (i + 8))) with
        | .error e => .ret (.error e)
        | .ok p =>
          match bpfLoop dlt data (align4 (i + readU16 data (i + 16) + readU32 data (i + 8))) fuel with
          | .ret (.ok ps) => .ret (.ok (p :: ps))
          | .ret (.error e) => .ret (.error e)
          | .panic => .panic
          | .hang => .hang
    else .ret (.ok [])

/-- `bpfHandle.parsePackets(data)`: empty input is a BufferUnderflow, else
run the record-splitting loop from position 0. -/
def parsePackets (dlt : Nat) (data : List Nat) : Exec (Except Err (List RadioPacket)) :=
  if data.length = 0 then .ret (.error .bufferUnderflow)
  else bpfLoop dlt data 0 (data.length + 1)

/-- Outcome of `unix.Write`: a byte count (with nil error) or an error. -/
inductive WriteOutcome where
  | written (n : Nat)
  | failed (e : Err)
deriving DecidableEq, Repr

/-- The buffer `bpfHandle.Send` hands to `unix.Write`: in radio mode the
frame is wrapped by the radiotap encoder, otherwise the raw frame.
(In the provided source the call is written `encodeRadiotapPacket(frame)`;
the data-rate argument of the encoder's definition is therefore exposed
here as the parameter `r`, which no claim depends on.) -/
def bpfSendData (dlt : Nat) (frame : List Nat) (r : Nat) : List Nat :=
  if dlt = dltIEEE802_11_RADIO then encodeRadiotapPacket frame r else frame

/-- `bpfHandle.Send(frame)`: write `bpfSendData` through the `write`
oracle; a write error is returned as-is, and a reported count below
`len(frame)` (the unwrapped frame!) yields the short-write error. -/
def bpfSend (dlt : Nat) (frame : List Nat) (r : Nat)
    (write : List Nat → WriteOutcome) : Except Err Unit :=
  match write (bpfSendData dlt frame r) with
  | .failed e => .error e
  | .written n =>
    if n < frame.length then .error (.msg "full packet was not sent")
    else .ok ()

/-- One `unix.Read` outcome delivered to `ReceiveMany`: a successful read
of the given bytes (count = length), or a read error.  EINTR retries are
transparent in the code and are not modelled as separate outcomes. -/
inductive ReadResult where
  | bytes (data : List Nat)
  | fail (e : Err)
deriving DecidableEq, Repr

/-- The state of a `bpfHandle` relevant to the embedded operations. -/
structure BpfState where
  dataLinkType : Nat
deriving DecidableEq, Repr

/-- `bpfHandle.ReceiveMany` on one read outcome: zero bytes mean
`errBPFReadTimeout`, otherwise the buffer is demultiplexed. -/
def receiveMany (b : BpfState) (r : ReadResult) : Exec (Except Err (List RadioPacket)) :=
  match r with
  | .fail e => .ret (.error e)
  | .bytes d =>
    if d.length = 0 then .ret (.error .readTimeout)
    else parsePackets b.dataLinkType d

/-- `osxHandle` (osx.go): nullable bpf handle and CoreWLAN-ioctl interface,
and the FIFO read buffer (the linked list `readBufferFirst/Last`, modelled
as a list).  Locks are irrelevant under the sequential semantics used here. -/
structure OsxHandle where
  bpfHandle : Option BpfState
  osxInterface : Option Unit
  readBuffer : List RadioPacket
deriving DecidableEq, Repr

/-- `osxHandle.populateReadBuffer`, driven by the sequence `reads` of
device-read outcomes: return `Closed` if the bpf handle is nil, retry past
read timeouts, propagate other errors, and append decoded packets to the
FIFO.  An exhausted oracle models the call still blocking on the device. -/
def populateReadBuffer (h : OsxHandle) : List ReadResult → Exec (Except Err OsxHandle)
  | [] =>
    match h.bpfHandle with
    | none => .ret (.error .closed)
    | some _ => .hang
  | r :: rs =>
    match h.bpfHandle with
    | none => .ret (.error .closed)
    | some b =>
      match receiveMany b r with
      | .ret (.error e) =>
        if e = .readTimeout then populateReadBuffer h rs else .ret (.error e)
      | .ret (.ok packets) => .ret (.ok { h with readBuffer := h.readBuffer ++ packets })
      | .panic => .panic
      | .hang => .hang

/-- `osxHandle.Receive`: if the FIFO is empty, fill it via
`populateReadBuffer`; then pop the head node unconditionally.  When the
fill step succeeds but appends nothing, the code dereferences the nil head
node (`node.next` with `node == nil`): a panic. -/
def osxReceive (h : OsxHandle) (reads : List ReadResult) :
    Exec (Except Err ((List Nat × Option RadioInfo) × OsxHandle)) :=
  match h.readBuffer with
  | p :: rest => .ret (.ok ((p.frame, p.radioInfo), { h with readBuffer := rest }))
  | [] =>
    match populateReadBuffer h reads with
    | .ret (.error e) => .ret (.error e)
    | .ret (.ok h2) =>
      match h2.readBuffer with
      | [] => .panic
      | p :: rest => .ret (.ok ((p.frame, p.radioInfo), { h2 with readBuffer := rest }))
    | .panic => .panic
    | .hang => .hang

/-- `osxHandle.Send`: `Closed` if the bpf handle is nil, else delegate to
`bpfHandle.Send`. -/
def osxSend (h : OsxHandle) (f : List Nat) (r : Nat)
    (write : List Nat → WriteOutcome) : Except Err Unit :=
  match h.bpfHandle with
  | none => .error .closed
  | some b => bpfSend b.dataLinkType f r write

/-- `osxHandle.SetChannel`: `Closed` if the interface is nil, else delegate
to the CoreWLAN ioctl layer, abstracted as the oracle `ctrl`. -/
def osxSetChannel (h : OsxHandle) (chNumber chWidth : Nat)
    (ctrl : Nat → Nat → Except Err Unit) : Except Err Unit :=
  match h.osxInterface with
  | none => .error .closed
  | some _ => ctrl chNumber chWidth

/-- `osxHandle.Close`: calls `h.bpfHandle.Close()` and
`h.osxInterface.Close()` and nils both fields.  There is no closed-flag
check: with a nil `bpfHandle` the method call dereferences `b.fd` on a nil
receiver — a panic. -/
def osxClose (h : OsxHandle) : Exec OsxHandle :=
  match h.bpfHandle with
  | none => .panic
  | some _ =>
    match h.osxInterface with
    | none => .panic
    | some _ => .ret { bpfHandle := none, osxInterface := none, readBuffer := h.readBuffer }

/-- `data` is tiled, from position `i` to its end, by well-formed capture
records (bpf_xhdr length fields in bounds, payload parseable, next record
at the 4-byte-aligned successor position), possibly with up to 3 bytes of
final alignment slack.  `ps` are the packets of those records in order. -/
inductive TilesExactly (dlt : Nat) (data : List Nat) : Nat → List RadioPacket → Prop where
  | nil (i : Nat) : data.length ≤ i → TilesExactly dlt data i []
  | cons (i hl cl : Nat) (p : RadioPacket) (ps : List RadioPacket) :
      i + 18 ≤ data.length →
      readU16 data (i + 16) = hl →
      readU32 data (i + 8) = cl →
      i + hl + cl ≤ data.length →
      parsePacket dlt (subSlice data (i + hl) (i + hl + cl)) = .ok p →
      i < align4 (i + hl + cl) →
      TilesExactly dlt data (align4 (i + hl + cl)) ps →
      TilesExactly dlt data i (p :: ps)

/-- Specification-side alignment: advance `off` to the next multiple of
`a` (spec §4.1: "the running offset is advanced to the next multiple of
that field's alignment"). -/
def nextMultiple (off a : Nat) : Nat :=
  if off % a = 0 then off else off + (a - off % a)

/-- Specification-side field extraction, following the spec's wording:
field 3 gives the frequency as a raw little-endian 16-bit value, fields
5/6/10 give signal/noise/transmit power as signed 8-bit values, field 1 is
the Flags byte.  Field 2 (the rate byte the code also stores) is kept so
that the two walks output identical records. -/
def radiotapSpecExtract (i : Nat) (fields : List Nat) (off : Nat)
    (acc : RadioInfo × Nat) : RadioInfo × Nat :=
  if i = 3 then ({ acc.1 with Frequency := (readU16 fields off : Int) }, acc.2)
  else if i = 5 then ({ acc.1 with SignalPower := int8OfByte (getByte fields off) }, acc.2)
  else if i = 6 then ({ acc.1 with NoisePower := int8OfByte (getByte fields off) }, acc.2)
  else if i = 10 then ({ acc.1 with TransmitPower := int8OfByte (getByte fields off) }, acc.2)
  else if i = 1 then (acc.1, getByte fields off)
  else if i = 2 then ({ acc.1 with Rate := getByte fields off }, acc.2)
  else acc

/-- Specification-side field walk (spec §4.1): walk the table once in index
order, skip absent fields, advance to the next multiple of the alignment,
fail with BufferUnderflow when the advanced offset plus the size exceeds
the field-area length, and extract the claimed fields. -/
def radiotapWalkSpecAux (present : Nat) (fields : List Nat) :
    Nat → List (Nat × Nat) → Nat → RadioInfo × Nat → Except Err (RadioInfo × Nat)
  | _, [], _, acc => .ok acc
  | i, (a, s) :: tbl, off, acc =>
    if present &&& (1 <<< i) = 0 then
      radiotapWalkSpecAux present fields (i + 1) tbl off acc
    else
      let off2 := nextMultiple off a
      if off2 + s > fields.length then .error .bufferUnderflow
      else
        radiotapWalkSpecAux present fields (i + 1) tbl (off2 + s)
          (radiotapSpecExtract i fields off2 acc)

/-- Specification-side analogue of `radiotapWalk`. -/
def radiotapWalkSpec (present : Nat) (fields : List Nat) :
    Except Err (RadioInfo × Nat) :=
  radiotapWalkSpecAux present fields 0 radiotapFields 0 (RadioInfo.zero, 0)

lemma radiotapAlign_eq_nextMultiple (off a : Nat)
    (ha : a = 1 ∨ a = 2 ∨ a = 8) : radiotapAlign off a = nextMultiple off a := by
  rcases ha with h | h | h <;> subst h
  · simp [radiotapAlign, nextMultiple, Nat.mod_one]
  · have h2 : off &&& (2 - 1) = off % 2 := Nat.and_one_is_mod off
    simp only [radiotapAlign, nextMultiple, h2]
    by_cases hz : off % 2 = 0 <;> simp [hz]
  · have h8 : off &&& (8 - 1) = off % 8 := Nat.and_pow_two_sub_one_eq_mod off 3
    simp only [radiotapAlign, nextMultiple, h8]
    by_cases hz : off % 8 = 0 <;> simp [hz]

lemma radiotapApplyField_eq_specExtract (i : Nat) (fields : List Nat)
    (off : Nat) (acc : RadioInfo × Nat) :
    radiotapApplyField i fields off acc = radiotapSpecExtract i fields off acc := by
  unfold radiotapApplyField radiotapSpecExtract
  split_ifs <;> first | rfl | omega

lemma radiotapWalkAux_eq_spec (present : Nat) (fields : List Nat)
    (tbl : List (Nat × Nat)) (htbl : ∀ p ∈ tbl, p.1 = 1 ∨ p.1 = 2 ∨ p.1 = 8) :
    ∀ (i off : Nat) (acc : RadioInfo × Nat),
      radiotapWalkAux present fields i tbl off acc =
        radiotapWalkSpecAux present fields i tbl off acc := by
  induction tbl with
  | nil => intro i off acc; rfl
  | cons hd tl ih =>
    intro i off acc
    obtain ⟨a, s⟩ := hd
    have ha : a = 1 ∨ a = 2 ∨ a = 8 := htbl (a, s) (List.mem_cons_self _ _)
    have htl : ∀ p ∈ tl, p.1 = 1 ∨ p.1 = 2 ∨ p.1 = 8 := by
      intro p hp; exact htbl p (List.mem_cons_of_mem _ hp)
    simp only [radiotapWalkAux, radiotapWalkSpecAux,
      radiotapAlign_eq_nextMultiple off a ha,
      radiotapApplyField_eq_specExtract]
    split
    · exact ih htl (i + 1) off acc
    · split
      · rfl
      · exact ih htl (i + 1) (nextMultiple off a + s) _

lemma radiotapHeader_encode (f : List Nat) (r : Nat) :
    radiotapHeader (encodeRadiotapPacket f r) = .ok (10, 6, [0x10, r % 256]) := by
  have h16 : readU16 (encodeRadiotapPacket f r) 2 = 10 := rfl
  have h32 : readU32 (encodeRadiotapPacket f r) 4 = 6 := rfl
  have hsl : subSlice (encodeRadiotapPacket f r) 8 10 = [0x10, r % 256] := rfl
  have hlen : (encodeRadiotapPacket f r).length = f.length + 10 := by
    simp [encodeRadiotapPacket]
  have c1 : ¬(f.length + 10 < 8) := by omega
  have c3 : (6 &&& 2147483648 : Nat) = 0 := by decide
  unfold radiotapHeader
  rw [h16, h32, hlen]
  norm_num [c1, hsl, c3]

/-- C1: decoding the bytes produced by `encodeRadiotapPacket(f, r)` succeeds
and yields exactly the frame `f` (no extra bytes appended: the FCS flag in
the encoded header suppresses checksum synthesis), together with a
RadioInfo whose frequency (and every other field except the rate code) is
0, because the Channel field is absent from the encoded bitmap. -/
theorem radiotap_encode_decode_roundtrip (f : List Nat) (r : Nat) :
    parseRadiotapPacket (encodeRadiotapPacket f r) =
      .ok ⟨f, some { RadioInfo.zero with Rate := r % 256 }⟩ := by
  have hw : radiotapWalk 6 [0x10, r % 256] =
      .ok ({ RadioInfo.zero with Rate := r % 256 }, 0x10) := by rfl
  unfold parseRadiotapPacket
  simp only [radiotapHeader_encode f r]
  rw [hw]
  simp [radiotapFlagHasPadding, radiotapFlagHasFCS,
    (by decide : (0x10 &&& 32 : Nat) = 0), (by decide : (0x10 &&& 16 : Nat) = 0x10),
    show List.drop 10 (encodeRadiotapPacket f r) = f from rfl]

/-- C6: any buffer shorter than 8 bytes, shorter than its declared
little-endian 16-bit header length at bytes [2:4], or declaring a header
length below 8, is rejected with BufferUnderflow. -/
theorem radiotap_decode_header_underflow (data : List Nat)
    (h : data.length < 8 ∨ data.length < readU16 data 2 ∨ readU16 data 2 < 8) :
    parseRadiotapPacket data = .error .bufferUnderflow := by
  unfold parseRadiotapPacket radiotapHeader
  by_cases h8 : data.length < 8
  · simp [h8]
  · have h2 : data.length < readU16 data 2 ∨ readU16 data 2 < 8 := by tauto
    simp [h8, h2]

/-- Witness for C6 at the empty buffer. -/
theorem radiotap_decode_header_underflow_witness :
    parseRadiotapPacket [] = .error .bufferUnderflow :=
  radiotap_decode_header_underflow [] (Or.inl (by decide))

/-- C7: the parser's field walk — one pass over the fixed
(alignment, size) table in index order, using bit-mask alignment
adjustment and failing with BufferUnderflow when an aligned offset plus
field size exceeds the field area — coincides with the specification-side
walk that advances offsets to the next multiple of the alignment and
extracts field 3 as a raw little-endian 16-bit frequency and fields
5/6/10 as signed 8-bit signal/noise/transmit power. -/
theorem radiotap_field_walk_spec (present : Nat) (fields : List Nat) :
    radiotapWalk present fields = radiotapWalkSpec present fields := by
  unfold radiotapWalk radiotapWalkSpec
  exact radiotapWalkAux_eq_spec present fields radiotapFields (by decide) 0 0 _

lemma radiotapHeader_ok_headerSize (data : List Nat) (hs pf : Nat) (df : List Nat)
    (h : radiotapHeader data = .ok (hs, pf, df)) : hs = readU16 data 2 := by
  unfold radiotapHeader at h
  split_ifs at h <;> simp_all

/-- Case analysis of the radiotap decoder outcome according to the decoded
Flags byte: padding bit set gives the unsupported-format error; otherwise
the returned frame is the post-header remainder, with the CRC-32 bytes
appended exactly when the FCS bit is clear. -/
lemma parseRadiotap_frame_shape (data : List Nat) (fl : Nat)
    (hfl : radiotapFlagsOf data = some fl) :
    (fl &&& radiotapFlagHasPadding ≠ 0 ∧
      parseRadiotapPacket data = .error (.msg "radiotap frame padding is unsupported"))
    ∨ (fl &&& radiotapFlagHasPadding = 0 ∧ fl &&& radiotapFlagHasFCS = 0 ∧
      ∃ info, parseRadiotapPacket data =
        .ok ⟨data.drop (readU16 data 2) ++ crc32le (data.drop (readU16 data 2)), some info⟩)
    ∨ (fl &&& radiotapFlagHasPadding = 0 ∧ fl &&& radiotapFlagHasFCS ≠ 0 ∧
      ∃ info, parseRadiotapPacket data = .ok ⟨data.drop (readU16 data 2), some info⟩) := by
  unfold radiotapFlagsOf at hfl
  unfold parseRadiotapPacket
  cases hh : radiotapHeader data with
  | error e => simp [hh] at hfl
  | ok t =>
    obtain ⟨hs, pf, df⟩ := t
    have hhs : hs = readU16 data 2 := radiotapHeader_ok_headerSize data hs pf df hh
    simp only [hh] at hfl
    simp only [hh]
    cases hw : radiotapWalk pf df with
    | error e => simp [hw] at hfl
    | ok q =>
      obtain ⟨info, flags⟩ := q
      simp only [hw] at hfl
      simp only [hw]
      have hfl2 : flags = fl := by simpa using hfl
      subst hfl2
      subst hhs
      by_cases hpad : flags &&& radiotapFlagHasPadding = 0
      · by_cases hfcs : flags &&& radiotapFlagHasFCS = 0
        · exact Or.inr (Or.inl ⟨hpad, hfcs, ⟨info, by simp [hpad, hfcs]⟩⟩)
        · exact Or.inr (Or.inr ⟨hpad, hfcs, ⟨info, by simp [hpad, hfcs]⟩⟩)
      · exact Or.inl ⟨hpad, by simp [hpad]⟩

/-- C9: whenever the decoded Flags byte has the padding bit (0x20) set, the
radiotap decoder fails with the unsupported-format error and returns no
packet. -/
theorem radiotap_padding_flag_unsupported (data : List Nat) (fl : Nat)
    (hfl : radiotapFlagsOf data = some fl)
    (hp : fl &&& radiotapFlagHasPadding ≠ 0) :
    parseRadiotapPacket data = .error (.msg "radiotap frame padding is unsupported") := by
  rcases parseRadiotap_frame_shape data fl hfl with ⟨_, h⟩ | ⟨h0, _⟩ | ⟨h0, _⟩
  · exact h
  · exact absurd h0 hp
  · exact absurd h0 hp

/-- Witness for C9: a 9-byte header whose Flags field is 0x20. -/
theorem radiotap_padding_flag_unsupported_witness :
    parseRadiotapPacket [0, 0, 9, 0, 2, 0, 0, 0, 0x20] =
      .error (.msg "radiotap frame padding is unsupported") :=
  radiotap_padding_flag_unsupported [0, 0, 9, 0, 2, 0, 0, 0, 0x20] 0x20
    (by decide) (by decide)

/-- C2: a decoded header whose Flags byte has the FCS bit set never has a
checksum appended (the returned frame is exactly the post-header bytes); a
header without it gets exactly the 4 little-endian CRC-32 bytes appended;
and the bare-MAC demux path (`parsePacket` in dltIEEE802_11 mode) appends
the same 4 CRC-32 bytes to every payload. -/
theorem radiotap_checksum_synthesis (data : List Nat) (fl : Nat)
    (hfl : radiotapFlagsOf data = some fl) :
    (fl &&& radiotapFlagHasFCS ≠ 0 → ∀ p, parseRadiotapPacket data = .ok p →
      p.frame = data.drop (readU16 data 2))
    ∧ (fl &&& radiotapFlagHasFCS = 0 → fl &&& radiotapFlagHasPadding = 0 →
      ∃ info, parseRadiotapPacket data =
        .ok ⟨data.drop (readU16 data 2) ++ crc32le (data.drop (readU16 data 2)), some info⟩)
    ∧ (crc32le (data.drop (readU16 data 2))).length = 4
    ∧ (∀ d : List Nat, parsePacket dltIEEE802_11 d = .ok ⟨d ++ crc32le d, none⟩ ∧
        (crc32le d).length = 4) := by
  refine ⟨?_, ?_, ?_, ?_⟩
  · intro hfcs p hp
    rcases parseRadiotap_frame_shape data fl hfl with ⟨_, h⟩ | ⟨_, h0, _⟩ | ⟨_, _, info, h⟩
    · rw [h] at hp; cases hp
    · exact absurd h0 hfcs
    · rw [h] at hp
      cases hp
      rfl
  · intro hfcs hpad
    rcases parseRadiotap_frame_shape data fl hfl with ⟨h0, _⟩ | ⟨_, _, hex⟩ | ⟨_, h0, _⟩
    · exact absurd hpad h0
    · exact hex
    · exact absurd hfcs h0
  · simp [crc32le, putU32le]
  · intro d
    exact ⟨by simp [parsePacket, dltIEEE802_11], by simp [crc32le, putU32le]⟩

/-- Witness for C2 at a 10-byte header with Flags byte 0 (FCS bit clear):
the checksum is synthesized and appended. -/
theorem radiotap_checksum_synthesis_witness :
    ∃ info, parseRadiotapPacket [0, 0, 10, 0, 6, 0, 0, 0, 0, 0] =
      .ok ⟨List.drop (readU16 [0, 0, 10, 0, 6, 0, 0, 0, 0, 0] 2) [0, 0, 10, 0, 6, 0, 0, 0, 0, 0] ++
          crc32le (List.drop (readU16 [0, 0, 10, 0, 6, 0, 0, 0, 0, 0] 2) [0, 0, 10, 0, 6, 0, 0, 0, 0, 0]),
        some info⟩ :=
  (radiotap_checksum_synthesis [0, 0, 10, 0, 6, 0, 0, 0, 0, 0] 0 (by decide)).2.1
    (by decide) (by decide)

lemma bpfLoop_stop (dlt : Nat) (d : List Nat) (i fuel : Nat)
    (h : d.length ≤ i + 18) (hf : 0 < fuel) :
    bpfLoop dlt d i fuel = .ret (.ok []) := by
  cases fuel with
  | zero => omega
  | succ n => simp [bpfLoop, show ¬(i + 18 < d.length) by omega]

lemma getByte_append_left (data junk : List Nat) (i : Nat) (h : i < data.length) :
    getByte (data ++ junk) i = getByte data i :=
  List.getD_append data junk 0 i h

lemma readU16_append_left (data junk : List Nat) (i : Nat) (h : i + 2 ≤ data.length) :
    readU16 (data ++ junk) i = readU16 data i := by
  unfold readU16
  rw [getByte_append_left data junk i (by omega),
    getByte_append_left data junk (i + 1) (by omega)]

lemma readU32_append_left (data junk : List Nat) (i : Nat) (h : i + 4 ≤ data.length) :
    readU32 (data ++ junk) i = readU32 data i := by
  unfold readU32
  rw [getByte_append_left data junk i (by omega),
    getByte_append_left data junk (i + 1) (by omega),
    getByte_append_left data junk (i + 2) (by omega),
    getByte_append_left data junk (i + 3) (by omega)]

lemma subSlice_append_left (data junk : List Nat) (a b : Nat) (h : b ≤ data.length) :
    subSlice (data ++ junk) a b = subSlice data a b := by
  unfold subSlice
  rw [List.take_append_of_le_length h]

lemma tiles_length (dlt : Nat) (data : List Nat) (i : Nat) (ps : List RadioPacket)
    (ht : TilesExactly dlt data i ps) : ps.length ≤ data.length - i := by
  induction ht with
  | nil j hj => simp
  | cons i hl cl p ps h18 hhl hcl hbound hparse hprog htail ih =>
    simp only [List.length_cons]
    omega

lemma bpfLoop_tiles (dlt : Nat) (data junk : List Nat)
    (hj1 : 1 ≤ junk.length) (hj2 : junk.length ≤ 18)
    (ps : List RadioPacket) (i : Nat) (ht : TilesExactly dlt data i ps) :
    ∀ fuel, ps.length + 1 ≤ fuel →
      bpfLoop dlt (data ++ junk) i fuel = .ret (.ok ps) := by
  induction ht with
  | nil j hj =>
    intro fuel hf
    refine bpfLoop_stop dlt (data ++ junk) j fuel ?_ (by omega)
    rw [List.length_append]
    omega
  | cons i hl cl p ps h18 hhl hcl hbound hparse hprog htail ih =>
    intro fuel hf
    simp only [List.length_cons] at hf
    cases fuel with
    | zero => omega
    | succ n =>
      have hlen : (data ++ junk).length = data.length + junk.length :=
        List.length_append data junk
      have hr16 : readU16 (data ++ junk) (i + 16) = hl := by
        rw [readU16_append_left data junk (i + 16) (by omega)]; exact hhl
      have hr32 : readU32 (data ++ junk) (i + 8) = cl := by
        rw [readU32_append_left data junk (i + 8) (by omega)]; exact hcl
      have hsub : subSlice (data ++ junk) (i + hl) (i + hl + cl) =
          subSlice data (i + hl) (i + hl + cl) :=
        subSlice_append_left data junk (i + hl) (i + hl + cl) (by omega)
      simp only [bpfLoop, hr16, hr32]
      rw [if_pos (by omega), if_neg (by omega), hsub, hparse]
      rw [ih n (by omega)]

/-- C4 (amended): the record-splitting loop stops scanning exactly when at
most 18 bytes remain past the current (4-byte-aligned) record boundary —
returning whatever records were already collected, regardless of the
content of that remainder — so a buffer tiled by well-formed records
followed by 1 to 18 bytes of arbitrary trailing garbage yields exactly
those records with no error. -/
theorem demux_loop_termination (dlt : Nat) (data junk : List Nat)
    (ps : List RadioPacket) (ht : TilesExactly dlt data 0 ps)
    (hj1 : 1 ≤ junk.length) (hj2 : junk.length ≤ 18) :
    parsePackets dlt (data ++ junk) = .ret (.ok ps)
    ∧ (∀ (d : List Nat) (i fuel : Nat), d.length ≤ i + 18 → 0 < fuel →
        bpfLoop dlt d i fuel = .ret (.ok [])) := by
  constructor
  · have hps : ps.length ≤ data.length := by
      have := tiles_length dlt data 0 ps ht
      omega
    unfold parsePackets
    rw [if_neg (by rw [List.length_append]; omega)]
    refine bpfLoop_tiles dlt data junk hj1 hj2 ps 0 ht ((data ++ junk).length + 1) ?_
    rw [List.length_append]
    omega
  · intro d i fuel h hf
    exact bpfLoop_stop dlt d i fuel h hf

/-- Witness for C4: one 20-byte record (headerLength 18, capturedLength 2)
followed by a single garbage byte. -/
theorem demux_loop_termination_witness :
    parsePackets dltIEEE802_11
        ([0, 0, 0, 0, 0, 0, 0, 0, 2, 0, 0, 0, 2, 0, 0, 0, 18, 0, 170, 187] ++ [0]) =
      .ret (.ok [⟨[170, 187] ++ crc32le [170, 187], none⟩]) :=
  (demux_loop_termination dltIEEE802_11
    [0, 0, 0, 0, 0, 0, 0, 0, 2, 0, 0, 0, 2, 0, 0, 0, 18, 0, 170, 187] [0]
    [⟨[170, 187] ++ crc32le [170, 187], none⟩]
    (TilesExactly.cons 0 18 2 ⟨[170, 187] ++ crc32le [170, 187], none⟩ []
      (by decide) (by decide) (by decide) (by decide) (by decide) (by decide)
      (TilesExactly.nil 20 (by decide)))
    (by decide) (by decide)).1

/-- Counterexample for C4 as stated: an 18-byte buffer consisting of one
complete, parsable record (headerLength 18, capturedLength 0).  Exactly 18
bytes remain — not "fewer than 18" — yet the loop terminates at once and
the record is never returned. -/
theorem demux_loop_termination_counterexample :
    parsePackets dltIEEE802_11 [0, 0, 0, 0, 0, 0, 0, 0, 0, 0, 0, 0, 0, 0, 0, 0, 18, 0] =
      .ret (.ok [])
    ∧ (List.length [0, 0, 0, 0, 0, 0, 0, 0, 0, 0, 0, 0, 0, 0, 0, 0, 18, 0] = 18)
    ∧ readU16 [0, 0, 0, 0, 0, 0, 0, 0, 0, 0, 0, 0, 0, 0, 0, 0, 18, 0] 16 = 18
    ∧ readU32 [0, 0, 0, 0, 0, 0, 0, 0, 0, 0, 0, 0, 0, 0, 0, 0, 18, 0] 8 = 0
    ∧ parsePacket dltIEEE802_11
        (subSlice [0, 0, 0, 0, 0, 0, 0, 0, 0, 0, 0, 0, 0, 0, 0, 0, 18, 0] 18 18) =
      .ok ⟨crc32le [], none⟩ := by
  refine ⟨by decide, by decide, by decide, by decide, by decide⟩

set_option maxRecDepth 8000 in
/-- C5: splitting an empty buffer fails with BufferUnderflow; a buffer with
two well-formed records (record 1 with headerLength 18 and capturedLength
10, record 2 at the 4-byte-aligned offset 28) yields exactly the two
packets in order, record 2's payload being read from byte 28+18. -/
theorem demux_two_records :
    parsePackets dltIEEE802_11 [] = .ret (.error .bufferUnderflow)
    ∧ parsePackets dltIEEE802_11
        [0, 0, 0, 0, 0, 0, 0, 0, 10, 0, 0, 0, 10, 0, 0, 0, 18, 0,
         1, 2, 3, 4, 5, 6, 7, 8, 9, 10,
         0, 0, 0, 0, 0, 0, 0, 0, 2, 0, 0, 0, 2, 0, 0, 0, 18, 0,
         171, 205] =
      .ret (.ok [⟨[1, 2, 3, 4, 5, 6, 7, 8, 9, 10] ++ crc32le [1, 2, 3, 4, 5, 6, 7, 8, 9, 10], none⟩,
        ⟨[171, 205] ++ crc32le [171, 205], none⟩])
    ∧ align4 (18 + 10) = 28
    ∧ subSlice
        [0, 0, 0, 0, 0, 0, 0, 0, 10, 0, 0, 0, 10, 0, 0, 0, 18, 0,
         1, 2, 3, 4, 5, 6, 7, 8, 9, 10,
         0, 0, 0, 0, 0, 0, 0, 0, 2, 0, 0, 0, 2, 0, 0, 0, 18, 0,
         171, 205] (28 + 18) (28 + 18 + 2) = [171, 205] := by
  refine ⟨by decide, by decide, by decide, by decide⟩

/-- C8 (amended): Send wraps the frame through the radiotap encoder in
radio mode and writes it untouched otherwise; it errors exactly when the
write reports fewer bytes than the length of the original, unwrapped
frame (so a radio-mode write that covers the frame but not the added
radiotap header is not detected as short). -/
theorem send_wraps_and_checks (dlt : Nat) (f : List Nat) (r n : Nat) (e : Err) :
    bpfSendData dltIEEE802_11_RADIO f r = encodeRadiotapPacket f r
    ∧ (dlt ≠ dltIEEE802_11_RADIO → bpfSendData dlt f r = f)
    ∧ (bpfSend dlt f r (fun _ => .written n) = .ok () ↔ f.length ≤ n)
    ∧ bpfSend dlt f r (fun _ => .failed e) = .error e := by
  refine ⟨rfl, ?_, ?_, rfl⟩
  · intro h
    simp [bpfSendData, h]
  · by_cases h : n < f.length
    · simp [bpfSend, h]
    · simp [bpfSend, h]
      omega

/-- Witness for C8's amended theorem in bare-MAC mode. -/
theorem send_wraps_and_checks_witness :
    bpfSendData 105 [9] 0 = [9]
    ∧ (bpfSend 105 [9] 0 (fun _ => .written 1) = .ok () ↔ (1 : Nat) ≤ 1) :=
  ⟨(send_wraps_and_checks 105 [9] 0 1 .closed).2.1 (by decide),
   (send_wraps_and_checks 105 [9] 0 1 .closed).2.2.1⟩

/-- Counterexample for C8 as stated: in radio mode the frame [1,2,3,4] is
wrapped into a 14-byte radiotap buffer; a write reporting only 4 bytes —
fewer than the 14 supplied to it — is nevertheless accepted, because the
code compares against the unwrapped frame length. -/
theorem send_short_write_counterexample :
    bpfSend dltIEEE802_11_RADIO [1, 2, 3, 4] 0 (fun _ => .written 4) = .ok ()
    ∧ (bpfSendData dltIEEE802_11_RADIO [1, 2, 3, 4] 0).length = 14 := by
  refine ⟨by decide, by decide⟩

/-- C3 (amended): once `Close()` has returned, `Send` and `SetChannel`
fail with Closed; `Receive` fails with Closed when the packet queue is
empty but still returns queued packets otherwise; and a second `Close()`
dereferences the nil bpf handle — it panics instead of being a no-op. -/
theorem handle_closed_behaviour (h h2 : OsxHandle) (hclose : osxClose h = .ret h2)
    (f : List Nat) (r : Nat) (w : List Nat → WriteOutcome)
    (chN chW : Nat) (ctrl : Nat → Nat → Except Err Unit) (reads : List ReadResult) :
    osxSend h2 f r w = .error .closed
    ∧ osxSetChannel h2 chN chW ctrl = .error .closed
    ∧ (h2.readBuffer = [] → osxReceive h2 reads = .ret (.error .closed))
    ∧ (∀ p rest, h2.readBuffer = p :: rest →
        osxReceive h2 reads = .ret (.ok ((p.frame, p.radioInfo), { h2 with readBuffer := rest })))
    ∧ osxClose h2 = .panic := by
  obtain ⟨bh, oi, rb⟩ := h
  cases bh with
  | none => simp [osxClose] at hclose
  | some b =>
    cases oi with
    | none => simp [osxClose] at hclose
    | some u =>
      simp only [osxClose] at hclose
      have hh2 : h2 = ⟨none, none, rb⟩ := by
        cases hclose
        rfl
      subst hh2
      refine ⟨rfl, rfl, ?_, ?_, rfl⟩
      · intro hrb
        have hrb2 : rb = [] := hrb
        subst hrb2
        cases reads with
        | nil => rfl
        | cons a rs => rfl
      · intro p rest hrb
        have hrb2 : rb = p :: rest := hrb
        subst hrb2
        rfl

/-- Witness for C3's amended theorem: a freshly closed handle. -/
theorem handle_closed_behaviour_witness :
    osxSend ⟨none, none, []⟩ [1] 0 (fun _ => .written 0) = .error .closed
    ∧ osxReceive ⟨none, none, []⟩ [] = .ret (.error .closed)
    ∧ osxClose ⟨none, none, []⟩ = .panic :=
  ⟨(handle_closed_behaviour ⟨some ⟨127⟩, some (), []⟩ ⟨none, none, []⟩ (by decide)
      [1] 0 (fun _ => .written 0) 1 20 (fun _ _ => .ok ()) []).1,
   (handle_closed_behaviour ⟨some ⟨127⟩, some (), []⟩ ⟨none, none, []⟩ (by decide)
      [1] 0 (fun _ => .written 0) 1 20 (fun _ _ => .ok ()) []).2.2.1 rfl,
   (handle_closed_behaviour ⟨some ⟨127⟩, some (), []⟩ ⟨none, none, []⟩ (by decide)
      [1] 0 (fun _ => .written 0) 1 20 (fun _ _ => .ok ()) []).2.2.2.2⟩

/-- Counterexample for C3 as stated: after closing a handle that still has
a buffered packet, `Receive` returns that packet (not the Closed error),
and a second `Close()` panics (not a no-op). -/
theorem handle_close_counterexample :
    osxClose ⟨some ⟨127⟩, some (), [⟨[5], none⟩]⟩ =
      .ret ⟨none, none, [⟨[5], none⟩]⟩
    ∧ osxReceive ⟨none, none, [⟨[5], none⟩]⟩ [] =
        .ret (.ok (([5], none), ⟨none, none, []⟩))
    ∧ osxClose ⟨none, none, [⟨[5], none⟩]⟩ = .panic := by
  refine ⟨by decide, by decide, by decide⟩

/-- C10: a successful device read of 1 to 18 bytes makes the batch parser
return an empty packet list with no error, after which `Receive` — having
filled nothing into its still-empty queue — pops the nil head node and
crashes: `Receive` is not total on this path. -/
theorem receive_empty_batch_panic (d : List Nat) (h : OsxHandle) (b : BpfState)
    (hd1 : 1 ≤ d.length) (hd2 : d.length ≤ 18)
    (hbuf : h.readBuffer = []) (hbpf : h.bpfHandle = some b) :
    parsePackets b.dataLinkType d = .ret (.ok [])
    ∧ osxReceive h [.bytes d] = .panic := by
  have hpp : parsePackets b.dataLinkType d = .ret (.ok []) := by
    unfold parsePackets
    rw [if_neg (by omega)]
    exact bpfLoop_stop _ _ 0 _ (by omega) (by omega)
  refine ⟨hpp, ?_⟩
  simp only [osxReceive, hbuf, populateReadBuffer, hbpf, receiveMany]
  rw [if_neg (by omega), hpp]
  simp [hbuf]

/-- Witness for C10: a one-byte successful read on a fresh handle. -/
theorem receive_empty_batch_panic_witness :
    parsePackets 127 [0] = .ret (.ok [])
    ∧ osxReceive ⟨some ⟨127⟩, some (), []⟩ [.bytes [0]] = .panic :=
  receive_empty_batch_panic [0] ⟨some ⟨127⟩, some (), []⟩ ⟨127⟩
    (by decide) (by decide) rfl rfl

end Gofi
